import Mathlib

/-!
Verification development for the Openfield behavioral-neuroscience pipeline.

Shallow embedding of the core alignment / segmentation / snippet-extraction
code (`syllable_root/data_processing.py`, `syllable_root/data_loader.py`,
`syllable_root/analysis.py`,
`project_root/processing/tracking_based_segmentation.py`).

Modelling conventions:
* a pandas `Series` cell that may be NaN is an `Option ℚ` (`none` = NaN);
* a DataFrame is a list of rows (or a named list of columns where only a
  few columns matter);
* pandas/NumPy vectorized operations are embedded element- or index-wise,
  keeping the NaN-propagation semantics of the originals
  (`x != NaN` is `true`, arithmetic with NaN yields NaN);
* Python `int` subtraction is embedded through `Int` wherever a difference
  may be negative.
-/

namespace Openfield

/-- NaN mask of a coordinate/label series: pandas `s.isna()`. -/
def isNanList (coords : List (Option ℚ)) : List Bool :=
  coords.map Option.isNone

/-- Elementwise pandas inequality `a != b` on possibly-NaN cells: any
comparison involving NaN yields `true` (NaN compares unequal to
everything, including NaN). -/
def pandasNe (a b : Option ℚ) : Bool :=
  match a, b with
  | some x, some y => decide (x ≠ y)
  | _, _ => true

/-- pandas `s.shift(1)`: the first cell becomes NaN, every other cell takes
the value of its predecessor; an empty series stays empty. -/
def seriesShift1 (s : List (Option ℚ)) : List (Option ℚ) :=
  match s with
  | [] => []
  | _ :: _ => none :: s.dropLast

/-- The initiation mask of `data_processing.py` (lines 39-41 and 168-170):
`initiations = (s != s.shift(1)) & (~s.isna())`, computed elementwise. -/
def initiationMask (s : List (Option ℚ)) : List Bool :=
  List.zipWith (fun a b => pandasNe a b && a.isSome) s (seriesShift1 s)

/-- `tracking_based_segmentation.nan_interval_to_segments` (lines 71-80):
given exactly three length-2 interval lists `(a,b),(c,d),(e,f)`, returns
the fixed-offset segments `(c-15*60, c), (d, d+30*60), (f, f+30*60)`;
any other shape returns `None`. -/
def nanIntervalToSegments (l : List (List ℚ)) :
    Option ((ℚ × ℚ) × (ℚ × ℚ) × (ℚ × ℚ)) :=
  match l with
  | [[_a, _b], [c, d], [_e, f]] =>
      some ((c - 15 * 60, c), (d, d + 30 * 60), (f, f + 30 * 60))
  | _ => none

/-- A cell of the `syllable_0` column as seen by `pd.to_numeric`:
a numeric value, a non-numeric text entry, or NaN. -/
inductive Cell where
  | num : ℚ → Cell
  | txt : Cell
  | nan : Cell
deriving DecidableEq, Repr

/-- `pd.to_numeric(col, errors='coerce')` on one cell: numeric values are
kept, non-numeric entries and NaN both become NaN. -/
def toNumericCoerce : Cell → Cell
  | .num q => .num q
  | _ => .nan

/-- The effect of `compute_syllable_counts` (`data_processing.py` lines
34-41) on its input tables: the only assignment into an input DataFrame is
`df['syllable_0'] = pd.to_numeric(df['syllable_0'], errors='coerce')`,
performed in place on every table of `merged_dfs`; all other columns are
only read.  This function returns the state of the `syllable_0` columns
after the call. -/
def computeSyllableCountsEffect (dfs : List (String × List Cell)) :
    List (String × List Cell) :=
  dfs.map (fun kv => (kv.1, kv.2.map toNumericCoerce))

/-! ### Interval detection (`tracking_based_segmentation.py`, lines 8-38) -/

/-- One elementwise step of pandas `is_nan != is_nan.shift()`: the shifted
predecessor is `none` (NaN) for the first element, and NaN compares unequal
to everything. -/
def boolNeShift (b : Bool) (prev : Option Bool) : Bool :=
  match prev with
  | none => true
  | some p => b != p

/-- Indices where `transitions = is_nan != is_nan.shift()` holds, in order:
`transition_indices = transitions[transitions].index`.  `prev` carries the
previous mask value (`none` before the first element, where the shift puts
NaN), `i` the current index. -/
def transitionsFrom (prev : Option Bool) (i : Nat) : List Bool → List Nat
  | [] => []
  | b :: rest =>
      if boolNeShift b prev then i :: transitionsFrom (some b) (i + 1) rest
      else transitionsFrom (some b) (i + 1) rest

/-- `transition_indices` of `find_non_nan_intervals` for a coordinate
series. -/
def transitionIndices (coords : List (Option ℚ)) : List Nat :=
  transitionsFrom none 0 (isNanList coords)

/-- `is_nan[i]` as a total function (`false` out of range; every index the
source reads is in range). -/
def nanAt (coords : List (Option ℚ)) (i : Nat) : Bool :=
  match coords.get? i with
  | some c => c.isNone
  | none => false

/-- The `nan_to_vals` list built by the loop of `find_non_nan_intervals`
(lines 17-21): transition indices whose mask value is present. -/
def nanToVals (coords : List (Option ℚ)) : List Nat :=
  (transitionIndices coords).filter (fun i => ! nanAt coords i)

/-- The `val_to_nans` list built by the same loop: transition indices whose
mask value is NaN. -/
def valToNans (coords : List (Option ℚ)) : List Nat :=
  (transitionIndices coords).filter (fun i => nanAt coords i)

/-- Start handling (lines 23-25): `if not is_nan.iloc[0]:
nan_to_vals.insert(0, 0)`. -/
def nanToValsAdjusted (coords : List (Option ℚ)) : List Nat :=
  if ! nanAt coords 0 then 0 :: nanToVals coords else nanToVals coords

/-- End handling (lines 27-29): `if not is_nan.iloc[-1]:
val_to_nans.append(len(centroid_coords))`. -/
def valToNansAdjusted (coords : List (Option ℚ)) : List Nat :=
  if ! nanAt coords (coords.length - 1) then
    valToNans coords ++ [coords.length]
  else valToNans coords

/-- `val_intervals = list(zip(val_to_nans, nan_to_vals))` (line 32): note
the source zips the `val_to_nans` list FIRST. -/
def candidateIntervals (coords : List (Option ℚ)) : List (Nat × Nat) :=
  (valToNansAdjusted coords).zip (nanToValsAdjusted coords)

/-- The length filter (line 33): keep `(a, b)` when `(b - a) > 4 * 60`,
with Python signed subtraction. -/
def qualifyingIntervals (coords : List (Option ℚ)) : List (Nat × Nat) :=
  (candidateIntervals coords).filter
    (fun p => decide (4 * 60 < (p.2 : Int) - (p.1 : Int)))

/-- `find_non_nan_intervals` (lines 8-38): returns the filtered interval
list iff it has exactly 3 members, otherwise `None` after printing a
warning with the count.  (The source raises `IndexError` on an empty
series at `is_nan.iloc[0]`; here the empty case is mapped to `none` and
every theorem about this function assumes a nonempty series.) -/
def findNonNanIntervals (coords : List (Option ℚ)) :
    Option (List (Nat × Nat)) :=
  if coords = [] then none
  else if (qualifyingIntervals coords).length = 3 then
    some (qualifyingIntervals coords)
  else none

/-- The count printed by the warning branch of `find_non_nan_intervals`
(line 35): `some` of the qualifying-interval count exactly when that count
is not 3 (and the series is nonempty). -/
def intervalWarningCount (coords : List (Option ℚ)) : Option Nat :=
  if coords = [] then none
  else if (qualifyingIntervals coords).length = 3 then none
  else some (qualifyingIntervals coords).length

/-- Modelled from the spec: the maximal contiguous non-missing (present)
runs of a coordinate series, as `(start, end)` index pairs with exclusive
end, in temporal order — the intervals the spec says `IntervalDetector`
returns.  `i` is the current index, the second argument the start of the
open present-run, if any. -/
def specPresentRunsAux : Nat → Option Nat → List (Option ℚ) → List (Nat × Nat)
  | _, none, [] => []
  | i, some s, [] => [(s, i)]
  | i, none, c :: rest =>
      if c.isSome then specPresentRunsAux (i + 1) (some i) rest
      else specPresentRunsAux (i + 1) none rest
  | i, some s, c :: rest =>
      if c.isSome then specPresentRunsAux (i + 1) (some s) rest
      else (s, i) :: specPresentRunsAux (i + 1) none rest

/-- Modelled from the spec: present runs of a series (see
`specPresentRunsAux`). -/
def specPresentRuns (coords : List (Option ℚ)) : List (Nat × Nat) :=
  specPresentRunsAux 0 none coords

/-- A series made of three missing gaps of lengths `g1, g2, g3`, each
followed by a present run of lengths `p1, p2, p3`. -/
def gapRunSeries (g1 p1 g2 p2 g3 p3 : Nat) : List (Option ℚ) :=
  List.replicate g1 none ++ (List.replicate p1 (some 0) ++
    (List.replicate g2 none ++ (List.replicate p2 (some 0) ++
      (List.replicate g3 none ++ List.replicate p3 (some 0)))))

/-! ### Snippet extraction (`data_processing.py`, lines 119-232) -/

/-- Injection phase of an event. -/
inductive Phase where
  | pre : Phase
  | post : Phase
deriving DecidableEq, Repr

/-- Phase classification of `extract_signal_snippets` (lines 186-195):
`pre` on `-25 ≤ sec ≤ -5`, `post` on `10 ≤ sec ≤ 40`, otherwise the event
is skipped; a NaN `SecFromInjection_fiber` fails both chained comparisons
in Python and is skipped too. -/
def injectionPhase (sec : Option ℚ) : Option Phase :=
  match sec with
  | none => none
  | some s =>
      if -25 ≤ s ∧ s ≤ -5 then some .pre
      else if 10 ≤ s ∧ s ≤ 40 then some .post
      else none

/-- Window extraction with the boundary policy of
`extract_signal_snippets` (lines 197-204): `start_idx = idx - m`,
`end_idx = idx + n` as Python signed integers; the event is retained only
when `start_idx >= 0 and end_idx < len(df)`, in which case the snippet is
the inclusive slice `iloc[start_idx : end_idx + 1]`. -/
def extractSnippetWindow (signal : List (Option ℚ)) (idx m n : Nat) :
    Option (List (Option ℚ)) :=
  if 0 ≤ (idx : Int) - m ∧ (idx : Int) + n < signal.length then
    some ((signal.drop (idx - m)).take (m + n + 1))
  else none

/-- The smoothing step (lines 206-208):
`pd.Series(x).rolling(window=w, min_periods=1).mean()`.  pandas `rolling`
uses a TRAILING window by default (`center=False`): output `i` is the mean
of the non-NaN samples among indices `max(0, i - w + 1) .. i`, or NaN when
none is valid (`min_periods=1` counts non-NaN samples). -/
def rollingMeanTrailing (w : Nat) (xs : List (Option ℚ)) :
    List (Option ℚ) :=
  (List.range xs.length).map (fun i =>
    let window := ((xs.take (i + 1)).drop (i + 1 - w)).filterMap id
    if window = [] then none else some (window.sum / window.length))

/-- Modelled from the spec (amended wording): the trailing-window mean at
index `i`, written by index enumeration — the mean of the valid samples at
indices `j` with `max (0, i - w + 1) ≤ j ≤ i`. -/
def specTrailingMean (w : Nat) (xs : List (Option ℚ)) (i : Nat) :
    Option ℚ :=
  let vals := (List.range (i + 1)).filterMap
    (fun j => if i + 1 - w ≤ j then (xs.get? j).join else none)
  if vals = [] then none else some (vals.sum / vals.length)

/-- Modelled from the spec: a CENTERED rolling mean of (odd) width `w` —
output `i` is the mean of the valid samples at indices
`i - (w-1)/2 .. i + (w-1)/2` — which is what the spec claims the smoothing
step computes. -/
def specCenteredMean (w : Nat) (xs : List (Option ℚ)) (i : Nat) :
    Option ℚ :=
  let k := (w - 1) / 2
  let vals := (List.range xs.length).filterMap
    (fun j => if i - k ≤ j ∧ j ≤ i + k then (xs.get? j).join else none)
  if vals = [] then none else some (vals.sum / vals.length)

/-- The normalization step (lines 210-215):
`snippet_rolled - snippet_rolled[normalization_frame]`, NumPy elementwise
subtraction with NaN propagation. -/
def normalizeSnippet (nf : Nat) (rolled : List (Option ℚ)) :
    List (Option ℚ) :=
  let nv := rolled.getD nf none
  rolled.map (fun x =>
    match x, nv with
    | some a, some b => some (a - b)
    | _, _ => none)

/-! ### Alignment and merge (`data_loader.py`, lines 172-255) -/

/-- Stable insertion of `x` into `l` under `le`. -/
def insertLe {α : Type _} (le : α → α → Bool) (x : α) : List α → List α
  | [] => [x]
  | y :: ys => if le x y then x :: y :: ys else y :: insertLe le x ys

/-- Stable insertion sort, modelling `DataFrame.sort_values`. -/
def sortValuesBy {α : Type _} (le : α → α → Bool) : List α → List α
  | [] => []
  | x :: xs => insertLe le x (sortValuesBy le xs)

/-- The nearest-timestamp match of `pd.merge_asof(..., direction='nearest')`
for one left row: the fiber row minimizing `|tsF f - t|` (first such row on
ties), `none` when the fiber table is empty. -/
def nearestFiber {F : Type _} (tsF : F → ℚ) (fib : List F) (t : ℚ) :
    Option F :=
  fib.foldl
    (fun acc f =>
      match acc with
      | none => some f
      | some g => if |tsF f - t| < |tsF g - t| then some f else some g)
    none

/-- `align_and_merge_data` for one subject (`data_loader.py` lines
204-228): truncate the syllable and tracking tables to
`min_len = min(len1, len2)` rows, concatenate them column-wise
(positionally), sort by the tracking timestamp, and left-join each
combined row with its nearest fiber row (`merge_asof`,
`direction='nearest'`).  `tsT` reads `BonsaiTrackingTimestamp` from a
tracking row, `tsF` reads `BonsaiFlyTimestamp` from a fiber row.  The
subsequent column renames/drops do not change the row count. -/
def alignAndMergeOne {S T F : Type _} (tsT : T → ℚ) (tsF : F → ℚ)
    (syl : List S) (trk : List T) (fib : List F) :
    List ((S × T) × Option F) :=
  let minLen := min syl.length trk.length
  let combined := (syl.take minLen).zip (trk.take minLen)
  let combSorted :=
    sortValuesBy (fun r r' => decide (tsT r.2 ≤ tsT r'.2)) combined
  let fibSorted := sortValuesBy (fun f f' => decide (tsF f ≤ tsF f')) fib
  combSorted.map (fun r => (r, nearestFiber tsF fibSorted (tsT r.2)))

/-! ### Distance-matrix computation (`analysis.py`, lines 46-103) -/

/-- A bucket of snippets: rows of a stacked snippet matrix. -/
abbrev Snips := List (List ℚ)

/-- The nested snippet collection `genotype → injection_phase → syllable →
snippet matrix`, as insertion-ordered association lists (Python dicts
preserve insertion order). -/
abbrev SnippetColl := List (String × List (String × List (Nat × Snips)))

/-- `photometry_signatures[syllable].extend(snippets)` on an
insertion-ordered association list: append to an existing entry, or add a
new entry at the end. -/
def addSnips : List (Nat × Snips) → Nat → Snips → List (Nat × Snips)
  | [], s, sn => [(s, sn)]
  | (t, old) :: rest, s, sn =>
      if t = s then (t, old ++ sn) :: rest
      else (t, old) :: addSnips rest s sn

/-- The signature-collection loop of `compute_photometry_distance_matrix`
(lines 69-80): iterate over genotype, phase and syllable buckets; skip a
bucket when `top_syllables` is given and does not contain the syllable, or
when it has fewer than `min_snippets` rows; extend the per-syllable
signature list otherwise. -/
def collectSignatures (coll : SnippetColl) (top : Option (List Nat))
    (minS : Nat) : List (Nat × Snips) :=
  coll.foldl
    (fun acc gp =>
      gp.2.foldl
        (fun acc2 ph =>
          ph.2.foldl
            (fun acc3 sp =>
              if (match top with
                  | some ts => decide (sp.1 ∈ ts)
                  | none => true) && decide (minS ≤ sp.2.length) then
                addSnips acc3 sp.1 sp.2
              else acc3)
            acc2)
        acc)
    []

/-- `np.mean(snippets, axis=0)` on a rectangular list of rows: the
elementwise mean vector (the source stacks equal-length snippets). -/
def vecMean (rows : Snips) : List ℚ :=
  match rows with
  | [] => []
  | r0 :: _ =>
      (List.range r0.length).map
        (fun j => (rows.map (fun r => r.getD j 0)).sum / rows.length)

/-- `syllables_photometry = sorted(syllable_means.keys())` (lines 83-86):
the syllables with a nonempty collected signature list, sorted
ascending. -/
def photometrySyllables (coll : SnippetColl) (top : Option (List Nat))
    (minS : Nat) : List Nat :=
  sortValuesBy (fun a b => decide (a ≤ b))
    (((collectSignatures coll top minS).filter
        (fun sp => !sp.2.isEmpty)).map Prod.fst)

/-- Signature list of one syllable in the collected association list. -/
def lookupSnips (sigs : List (Nat × Snips)) (s : Nat) : Snips :=
  (sigs.lookup s).getD []

/-- Number of feature columns of a row matrix. -/
def colCount (m : List (List ℝ)) : Nat := (m.headD []).length

/-- Per-column mean used by `StandardScaler`. -/
noncomputable def colMean (m : List (List ℝ)) (j : Nat) : ℝ :=
  (m.map (fun r => r.getD j 0)).sum / m.length

/-- Per-column population standard deviation used by `StandardScaler`
(`ddof = 0`). -/
noncomputable def colStd (m : List (List ℝ)) (j : Nat) : ℝ :=
  Real.sqrt ((m.map (fun r => (r.getD j 0 - colMean m j) ^ 2)).sum /
    m.length)

/-- `StandardScaler().fit_transform` (lines 96-97): per column, subtract
the mean and divide by the standard deviation (a zero deviation is
replaced by 1, as in sklearn's `_handle_zeros_in_scale`). -/
noncomputable def standardizeCols (m : List (List ℝ)) : List (List ℝ) :=
  m.map (fun r =>
    (List.range (colCount m)).map (fun j =>
      (r.getD j 0 - colMean m j) /
        (if colStd m j = 0 then 1 else colStd m j)))

/-- The standardized feature matrix (lines 93-97): one row per included
syllable, in `photometrySyllables` order, each row the mean signature of
that syllable. -/
noncomputable def signatureMatrix (coll : SnippetColl)
    (top : Option (List Nat)) (minS : Nat) : List (List ℝ) :=
  standardizeCols
    ((photometrySyllables coll top minS).map (fun s =>
      (vecMean (lookupSnips (collectSignatures coll top minS) s)).map
        (fun q => (q : ℝ))))

/-- Dot product of two feature vectors. -/
noncomputable def dotR (u v : List ℝ) : ℝ :=
  (List.zipWith (fun a b => a * b) u v).sum

/-- SciPy's cosine distance `1 - u·v / (‖u‖ ‖v‖)`. -/
noncomputable def cosineDist (u v : List ℝ) : ℝ :=
  1 - dotR u v / (Real.sqrt (dotR u u) * Real.sqrt (dotR v v))

/-- `squareform(pdist(X, metric='cosine'))` (line 100): `pdist` computes
the cosine distance of each row pair `i < j` once; `squareform` places
that value at both `(i, j)` and `(j, i)` and zero on the diagonal — hence
the `min`/`max` below.  The matrix is square over the sorted included
syllable set by its index type. -/
noncomputable def photometryDistanceMatrix (coll : SnippetColl)
    (top : Option (List Nat)) (minS : Nat) :
    Matrix (Fin (photometrySyllables coll top minS).length)
      (Fin (photometrySyllables coll top minS).length) ℝ :=
  fun i j =>
    if i = j then 0
    else
      cosineDist
        ((signatureMatrix coll top minS).getD (min i.1 j.1) [])
        ((signatureMatrix coll top minS).getD (max i.1 j.1) [])

/-! ### Concrete inputs used by counterexamples and witnesses -/

/-- A two-frame timeline with the constant present label 3. -/
def firstFrameSeries : List (Option ℚ) := [some 3, some 3]

/-- A series with exactly three present runs of 241 frames each, separated
by single missing frames, beginning and ending with a present frame. -/
def threeRunSeries : List (Option ℚ) :=
  List.replicate 241 (some 0) ++ [none] ++ List.replicate 241 (some 0) ++
    [none] ++ List.replicate 241 (some 0)

/-- A series whose two missing gaps span exactly 240 and 241 frames. -/
def boundarySeries : List (Option ℚ) :=
  List.replicate 240 none ++ [some 0] ++ List.replicate 241 none ++
    [some 0]

/-- A three-sample signal exposing the trailing-vs-centered difference. -/
def smoothingExample : List (Option ℚ) := [some 0, some 0, some 3]

/-- A snippet collection with two syllables of 10 snippets each. -/
def collWitness : SnippetColl :=
  [("WT", [("pre", [(2, List.replicate 10 [1, 2]),
                    (1, List.replicate 10 [3, 5])])])]

/-! ## Theorems -/

/-- C4: `nan_interval_to_segments` maps any three length-2 intervals
`(a,b),(c,d),(e,f)` to exactly the segments `(c-900, c)`, `(d, d+1800)`,
`(f, f+1800)`; on the concrete input `(100,150),(5000,5010),(9000,9050)`
the first segment is `(4100, 5000)`; every input that is not exactly three
pairs yields `None`. -/
theorem nanIntervalToSegments_spec :
    (∀ a b c d e f : ℚ,
        nanIntervalToSegments [[a, b], [c, d], [e, f]] =
          some ((c - 900, c), (d, d + 1800), (f, f + 1800)))
    ∧ nanIntervalToSegments [[100, 150], [5000, 5010], [9000, 9050]] =
        some ((4100, 5000), (5010, 6810), (9050, 10850))
    ∧ ∀ l : List (List ℚ),
        (¬ ∃ a b c d e f : ℚ, l = [[a, b], [c, d], [e, f]]) →
          nanIntervalToSegments l = none := by
  refine ⟨fun a b c d e f => by norm_num [nanIntervalToSegments],
    by norm_num [nanIntervalToSegments], fun l h => ?_⟩
  unfold nanIntervalToSegments
  split
  · next a b c d e f => exact absurd ⟨a, b, c, d, e, f, rfl⟩ h
  · rfl

/-- Witness for C4: a concrete malformed input (one row of length 1) is
rejected. -/
theorem nanIntervalToSegments_spec_witness :
    (¬ ∃ a b c d e f : ℚ, ([[1]] : List (List ℚ)) = [[a, b], [c, d], [e, f]])
    ∧ nanIntervalToSegments [[1]] = none := by
  have hne : ¬ ∃ a b c d e f : ℚ, ([[1]] : List (List ℚ)) = [[a, b], [c, d], [e, f]] := by
    rintro ⟨a, b, c, d, e, f, h⟩
    simp at h
  exact ⟨hne, nanIntervalToSegments_spec.2.2 [[1]] hne⟩

/-- C10 counterexample: `compute_syllable_counts` does NOT leave its input
tables unchanged — the in-place coercion
`df['syllable_0'] = pd.to_numeric(df['syllable_0'], errors='coerce')`
overwrites a non-numeric text entry with NaN. -/
theorem computeSyllableCountsEffect_cex :
    computeSyllableCountsEffect [("m1", [Cell.txt])] ≠
      [("m1", [Cell.txt])] := by decide

/-- A map is the identity on a list iff it fixes every member. -/
theorem map_eq_self_iff_forall {α : Type _} (f : α → α) (l : List α) :
    l.map f = l ↔ ∀ a ∈ l, f a = a := by
  induction l with
  | nil => simp
  | cons a l ih => simp [ih]

/-- C10 amended: after `compute_syllable_counts`, each table's
`syllable_0` column holds the numeric coercion of its old value, and the
tables are all unchanged iff no `syllable_0` cell is non-numeric text. -/
theorem computeSyllableCountsEffect_unchanged_iff
    (dfs : List (String × List Cell)) :
    computeSyllableCountsEffect dfs = dfs ↔
      ∀ kv ∈ dfs, ∀ c ∈ kv.2, c ≠ Cell.txt := by
  unfold computeSyllableCountsEffect
  rw [map_eq_self_iff_forall]
  constructor
  · intro h kv hkv c hc hctxt
    have hrow := h kv hkv
    have h2 : kv.2.map toNumericCoerce = kv.2 := by
      have := congrArg Prod.snd hrow
      simpa using this
    rw [map_eq_self_iff_forall] at h2
    have := h2 c hc
    subst hctxt
    simp [toNumericCoerce] at this
  · intro h kv hkv
    have h2 : kv.2.map toNumericCoerce = kv.2 := by
      rw [map_eq_self_iff_forall]
      intro c hc
      have := h kv hkv c hc
      cases c <;> simp [toNumericCoerce] at this ⊢
    calc (kv.1, kv.2.map toNumericCoerce) = (kv.1, kv.2) := by rw [h2]
      _ = kv := rfl

/-- Witness for C10 amended: a table with only numeric and missing cells
is returned unchanged. -/
theorem computeSyllableCountsEffect_unchanged_iff_witness :
    computeSyllableCountsEffect [("m1", [Cell.num 3, Cell.nan])] =
      [("m1", [Cell.num 3, Cell.nan])] :=
  (computeSyllableCountsEffect_unchanged_iff
    [("m1", [Cell.num 3, Cell.nan])]).mpr (by decide)

/-- C6: an initiation event at `idx` is retained iff `idx - m ≥ 0` and
`idx + n < len` (Python signed arithmetic), and every retained window has
exactly `m + n + 1` samples. -/
theorem extractSnippetWindow_spec (signal : List (Option ℚ))
    (idx m n : Nat) :
    ((extractSnippetWindow signal idx m n).isSome ↔
      0 ≤ (idx : Int) - m ∧ (idx : Int) + n < signal.length)
    ∧ (∀ w, extractSnippetWindow signal idx m n = some w →
        w.length = m + n + 1) := by
  constructor
  · unfold extractSnippetWindow
    split
    · next h => simpa using h
    · next h => simpa using h
  · intro w hw
    unfold extractSnippetWindow at hw
    split at hw
    · next h =>
        obtain ⟨h1, h2⟩ := h
        injection hw with hw
        subst hw
        simp only [List.length_take, List.length_drop]
        omega
    · exact absurd hw (by simp)

/-- Witness for C6: with `m = n = 150` on a 1000-frame series, an event at
index 5 is discarded and an event at index 150 is retained with a window
of 301 samples. -/
theorem extractSnippetWindow_spec_witness :
    ¬ (extractSnippetWindow (List.replicate 1000 (some (0 : ℚ)))
        5 150 150).isSome
    ∧ (extractSnippetWindow (List.replicate 1000 (some (0 : ℚ)))
        150 150 150).isSome
    ∧ ∀ w, extractSnippetWindow (List.replicate 1000 (some (0 : ℚ)))
        150 150 150 = some w → w.length = 301 := by
  refine ⟨?_, ?_, ?_⟩
  · intro hs
    have h := (extractSnippetWindow_spec
      (List.replicate 1000 (some (0 : ℚ))) 5 150 150).1.mp hs
    omega
  · refine (extractSnippetWindow_spec
      (List.replicate 1000 (some (0 : ℚ))) 150 150 150).1.mpr ⟨by norm_num, ?_⟩
    rw [List.length_replicate]
    norm_num
  · intro w hw
    exact (extractSnippetWindow_spec
      (List.replicate 1000 (some (0 : ℚ))) 150 150 150).2 w hw

theorem length_insertLe {α : Type _} (le : α → α → Bool) (x : α)
    (l : List α) : (insertLe le x l).length = l.length + 1 := by
  induction l with
  | nil => rfl
  | cons y ys ih =>
      unfold insertLe
      split
      · rfl
      · simpa using ih

theorem length_sortValuesBy {α : Type _} (le : α → α → Bool)
    (l : List α) : (sortValuesBy le l).length = l.length := by
  induction l with
  | nil => rfl
  | cons x xs ih =>
      unfold sortValuesBy
      rw [length_insertLe, ih, List.length_cons]

/-- C5: for every subject, `align_and_merge_data` truncates the syllable
and tracking tables to `min(len(state), len(tracking))` rows from the
start, and the merged output has exactly that many rows, whatever the
fiber table's row count. -/
theorem alignAndMergeOne_length {S T F : Type _} (tsT : T → ℚ)
    (tsF : F → ℚ) (syl : List S) (trk : List T) (fib : List F) :
    (alignAndMergeOne tsT tsF syl trk fib).length =
      min syl.length trk.length
    ∧ (syl.take (min syl.length trk.length)).length =
        min syl.length trk.length
    ∧ (trk.take (min syl.length trk.length)).length =
        min syl.length trk.length := by
  refine ⟨?_, by simp, by simp⟩
  unfold alignAndMergeOne
  simp only [List.length_map, length_sortValuesBy, List.length_zip,
    List.length_take]
  omega

theorem dotR_comm (u v : List ℝ) : dotR u v = dotR v u := by
  unfold dotR
  induction u generalizing v with
  | nil => cases v <;> simp
  | cons a u ih => cases v <;> simp [ih, mul_comm]

theorem cosineDist_comm (u v : List ℝ) : cosineDist u v = cosineDist v u := by
  unfold cosineDist
  rw [dotR_comm u v, mul_comm]

/-- C9: whenever `compute_photometry_distance_matrix` returns a matrix
(at least one syllable passes the `min_snippets` filter, i.e. the sorted
included-syllable list is nonempty), that matrix — square over the sorted
included syllable set by construction — is symmetric with zero diagonal,
and its off-diagonal entries are the pairwise cosine distances of the
standardized mean signatures. -/
theorem photometryDistanceMatrix_spec (coll : SnippetColl)
    (top : Option (List Nat)) (minS : Nat)
    (h : photometrySyllables coll top minS ≠ []) :
    (∀ i j, photometryDistanceMatrix coll top minS i j =
        photometryDistanceMatrix coll top minS j i)
    ∧ (∀ i, photometryDistanceMatrix coll top minS i i = 0)
    ∧ (∀ i j, i ≠ j →
        photometryDistanceMatrix coll top minS i j =
          cosineDist ((signatureMatrix coll top minS).getD i.1 [])
            ((signatureMatrix coll top minS).getD j.1 [])) := by
  refine ⟨?_, ?_, ?_⟩
  · intro i j
    unfold photometryDistanceMatrix
    rcases eq_or_ne i j with rfl | hij
    · rfl
    · rw [if_neg hij, if_neg (Ne.symm hij), min_comm, max_comm]
  · intro i
    unfold photometryDistanceMatrix
    rw [if_pos rfl]
  · intro i j hij
    unfold photometryDistanceMatrix
    rw [if_neg hij]
    have hval : i.1 ≠ j.1 := fun hv => hij (Fin.val_injective hv)
    rcases le_total i.1 j.1 with hle | hle
    · rw [min_eq_left hle, max_eq_right hle]
    · rw [min_eq_right hle, max_eq_left hle, cosineDist_comm]

/-- Witness for C9: a collection with two syllables of 10 snippets each
passes the threshold; the diagonal of its distance matrix is zero. -/
theorem photometryDistanceMatrix_spec_witness :
    photometrySyllables collWitness none 10 ≠ []
    ∧ ∀ i, photometryDistanceMatrix collWitness none 10 i i = 0 :=
  ⟨by decide, (photometryDistanceMatrix_spec collWitness none 10
    (by decide)).2.1⟩

/-- C8: with `normalization_frame = 0` and a valid rolling window
(`window_size ≥ 1`), every retained snippet whose raw samples are all
present normalizes its first sample to exactly 0: the smoothed value at
frame 0 is subtracted from itself. -/
theorem normalizeSnippet_first_zero (raw : List ℚ) (w : Nat)
    (hraw : raw ≠ []) (hw : 1 ≤ w) :
    (normalizeSnippet 0 (rollingMeanTrailing w (raw.map some))).get? 0 =
      some (some 0) := by
  obtain ⟨a, as, rfl⟩ := List.exists_cons_of_ne_nil hraw
  have h10 : 1 - w = 0 := by omega
  have hget0 : (rollingMeanTrailing w ((a :: as).map some)).get? 0 =
      some (some a) := by
    unfold rollingMeanTrailing
    rw [List.get?_map]
    have hr : (List.range ((a :: as).map some).length).get? 0 = some 0 := by
      rw [List.get?_eq_getElem?, List.getElem?_range (by simp)]
    rw [hr]
    simp [h10, List.take, List.filterMap]
  unfold normalizeSnippet
  rw [List.get?_map, hget0]
  have hD : (rollingMeanTrailing w ((a :: as).map some)).getD 0 none =
      some a := by
    rw [List.get?_eq_getElem?] at hget0
    rw [List.getD_eq_getElem?_getD, List.map_cons] at *
    rw [hget0]
    rfl
  rw [hD]
  simp

/-- Witness for C8: the raw window `[1, 2, 3]` with the default
`window_size = 15` normalizes its first sample to 0. -/
theorem normalizeSnippet_first_zero_witness :
    ([(1 : ℚ), 2, 3] ≠ [] ∧ 1 ≤ 15)
    ∧ (normalizeSnippet 0
        (rollingMeanTrailing 15 (([(1 : ℚ), 2, 3]).map some))).get? 0 =
      some (some 0) :=
  ⟨⟨by decide, by decide⟩,
    normalizeSnippet_first_zero [1, 2, 3] 15 (by decide) (by decide)⟩

/-- C3: on a nonempty series, `find_non_nan_intervals` returns a list iff
exactly 3 candidate intervals pass the length filter (and then returns the
filtered list itself); otherwise it returns `None` and the printed
diagnostic carries the count found; the filter retains a candidate
`(a, b)` iff `b - a > 240` strictly. -/
theorem findNonNanIntervals_contract (coords : List (Option ℚ))
    (h : coords ≠ []) :
    ((findNonNanIntervals coords).isSome ↔
      (qualifyingIntervals coords).length = 3)
    ∧ (∀ l, findNonNanIntervals coords = some l →
        l = qualifyingIntervals coords)
    ∧ (findNonNanIntervals coords = none →
        intervalWarningCount coords =
          some (qualifyingIntervals coords).length)
    ∧ (∀ p ∈ candidateIntervals coords,
        (p ∈ qualifyingIntervals coords ↔
          240 < (p.2 : Int) - (p.1 : Int))) := by
  refine ⟨?_, ?_, ?_, ?_⟩
  · unfold findNonNanIntervals
    rw [if_neg h]
    split
    · next h3 => simpa using h3
    · next h3 => simpa using h3
  · intro l hl
    unfold findNonNanIntervals at hl
    rw [if_neg h] at hl
    split at hl
    · injection hl with hl
      exact hl.symm
    · cases hl
  · intro hnone
    unfold findNonNanIntervals at hnone
    rw [if_neg h] at hnone
    unfold intervalWarningCount
    rw [if_neg h]
    split at hnone
    · cases hnone
    · next h3 => rw [if_neg h3]
  · intro p hp
    unfold qualifyingIntervals
    rw [List.mem_filter]
    constructor
    · rintro ⟨-, hdec⟩
      rw [decide_eq_true_eq] at hdec
      omega
    · intro h240
      exact ⟨hp, by rw [decide_eq_true_eq]; omega⟩

set_option maxRecDepth 20000 in
/-- Witness for C3: on `boundarySeries` (gaps of exactly 240 and 241
frames) the 240-frame candidate is excluded, the 241-frame candidate is
included, only 1 interval qualifies, so no list is returned and the
warning carries count 1. -/
theorem findNonNanIntervals_contract_witness :
    boundarySeries ≠ []
    ∧ ¬ (findNonNanIntervals boundarySeries).isSome
    ∧ ((0, 240) ∈ candidateIntervals boundarySeries
        ∧ (0, 240) ∉ qualifyingIntervals boundarySeries)
    ∧ ((241, 482) ∈ candidateIntervals boundarySeries
        ∧ (241, 482) ∈ qualifyingIntervals boundarySeries)
    ∧ intervalWarningCount boundarySeries = some 1 := by
  have hne : boundarySeries ≠ [] := by decide
  refine ⟨hne, ?_, ⟨by decide, ?_⟩, ⟨by decide, ?_⟩, by decide⟩
  · intro hs
    have h3 := (findNonNanIntervals_contract boundarySeries hne).1.mp hs
    have h1 : (qualifyingIntervals boundarySeries).length = 1 := by decide
    omega
  · intro hmem
    have := ((findNonNanIntervals_contract boundarySeries hne).2.2.2
      (0, 240) (by decide)).mp hmem
    omega
  · exact ((findNonNanIntervals_contract boundarySeries hne).2.2.2
      (241, 482) (by decide)).mpr (by norm_num)

/-- Pointwise value of the initiation mask: at index `i`, the mask holds
the pandas comparison of the label with its shifted predecessor (NaN
before the first frame), conjoined with the label being present. -/
theorem initiationMask_get? (s : List (Option ℚ)) (i : Nat)
    (hi : i < s.length) :
    (initiationMask s).get? i =
      some (pandasNe (s.getD i none)
          (if i = 0 then none else s.getD (i - 1) none)
        && (s.getD i none).isSome) := by
  have hne : s ≠ [] := List.ne_nil_of_length_pos (by omega)
  obtain ⟨a, as, rfl⟩ := List.exists_cons_of_ne_nil hne
  have hv : (a :: as).get? i = some ((a :: as).getD i none) := by
    rw [List.get?_eq_getElem?, List.getD_eq_getElem?_getD,
      List.getElem?_eq_getElem hi]
    rfl
  have hshift : (seriesShift1 (a :: as)).get? i =
      some (if i = 0 then none else (a :: as).getD (i - 1) none) := by
    cases i with
    | zero => rfl
    | succ j =>
        have hj : j < (a :: as).length - 1 := by
          simp only [List.length_cons] at hi ⊢
          omega
        show ((none :: (a :: as).dropLast) : List (Option ℚ)).get? (j + 1) = _
        rw [List.get?_eq_getElem?, List.getElem?_cons_succ,
          List.dropLast_eq_take, List.getElem?_take_of_lt hj,
          if_neg (Nat.succ_ne_zero j), List.getD_eq_getElem?_getD,
          Nat.add_sub_cancel,
          List.getElem?_eq_getElem (by omega : j < (a :: as).length)]
        rfl
  unfold initiationMask
  rw [List.get?_zipWith', hv, hshift]
  rfl

/-- C1 counterexample: on the timeline `[3, 3]` the very FIRST frame is
detected as an initiation (pandas `shift(1)` yields NaN before frame 0 and
`3 != NaN` is True), refuting the claim that the first frame is never
detected. -/
theorem initiationMask_firstFrame_cex :
    (initiationMask firstFrameSeries).get? 0 = some true := by decide

/-- C1 amended: a frame is detected as an initiation iff its label is
present and either it is the very first frame, or the preceding label is
missing, or the preceding label is present and different; in particular
the first frame is detected whenever its label is present. -/
theorem initiationMask_iff (s : List (Option ℚ)) (i : Nat)
    (hi : i < s.length) :
    (initiationMask s).get? i = some true ↔
      ∃ v, s.get? i = some (some v) ∧
        (i = 0 ∨ s.get? (i - 1) = some none ∨
          ∃ w, s.get? (i - 1) = some (some w) ∧ v ≠ w) := by
  have hv : s.get? i = some (s.getD i none) := by
    rw [List.get?_eq_getElem?, List.getD_eq_getElem?_getD,
      List.getElem?_eq_getElem hi]
    rfl
  rw [initiationMask_get? s i hi]
  constructor
  · intro h
    injection h with h
    rw [Bool.and_eq_true] at h
    obtain ⟨hne', hsome⟩ := h
    obtain ⟨v, hv'⟩ := Option.isSome_iff_exists.mp hsome
    refine ⟨v, by rw [hv, hv'], ?_⟩
    rcases Nat.eq_zero_or_pos i with rfl | hpos
    · exact Or.inl rfl
    · have hprev : s.get? (i - 1) = some (s.getD (i - 1) none) := by
        rw [List.get?_eq_getElem?, List.getD_eq_getElem?_getD,
          List.getElem?_eq_getElem (by omega : i - 1 < s.length)]
        rfl
      rw [if_neg (by omega)] at hne'
      cases hw : s.getD (i - 1) none with
      | none => exact Or.inr (Or.inl (by rw [hprev, hw]))
      | some w =>
          rw [hv', hw] at hne'
          have : v ≠ w := by simpa [pandasNe] using hne'
          exact Or.inr (Or.inr ⟨w, by rw [hprev, hw], this⟩)
  · rintro ⟨v, hvi, hcond⟩
    have hgd : s.getD i none = some v := by
      rw [hv] at hvi
      injection hvi
    congr 1
    rw [Bool.and_eq_true]
    refine ⟨?_, by rw [hgd]; rfl⟩
    by_cases hi0 : i = 0
    · rw [if_pos hi0, hgd]
      rfl
    · rw [if_neg hi0, hgd]
      have hprev : s.get? (i - 1) = some (s.getD (i - 1) none) := by
        rw [List.get?_eq_getElem?, List.getD_eq_getElem?_getD,
          List.getElem?_eq_getElem (by omega : i - 1 < s.length)]
        rfl
      rcases hcond with rfl | hmiss | ⟨w, hw, hvw⟩
      · exact absurd rfl hi0
      · rw [hprev] at hmiss
        injection hmiss with hmiss
        rw [hmiss]
        rfl
      · rw [hprev] at hw
        injection hw with hw
        rw [hw]
        simpa [pandasNe] using hvw

/-- Witness for C1 amended: on `[3, 4]`, frame 1 has a present label that
differs from the present preceding label, so it is detected. -/
theorem initiationMask_iff_witness :
    1 < ([some (3 : ℚ), some 4]).length
    ∧ (initiationMask [some (3 : ℚ), some 4]).get? 1 = some true :=
  ⟨by decide, (initiationMask_iff [some (3 : ℚ), some 4] 1 (by decide)).mpr
    ⟨4, rfl, Or.inr (Or.inr ⟨3, rfl, by norm_num⟩)⟩⟩

/-- The valid samples of a suffix, recovered by index enumeration: dropping
`lo` elements and keeping the present ones is the same as walking all
indices and keeping present samples at indices `≥ lo`. -/
theorem filterMap_drop_eq_range (l : List (Option ℚ)) (lo : Nat) :
    (l.drop lo).filterMap id =
      (List.range l.length).filterMap
        (fun j => if lo ≤ j then (l.get? j).join else none) := by
  induction l generalizing lo with
  | nil => simp
  | cons a l ih =>
      rw [List.length_cons, List.range_succ_eq_map, List.filterMap_cons,
        List.filterMap_map]
      cases lo with
      | zero =>
          rw [List.drop_zero, List.filterMap_cons]
          have htail : (l.drop 0).filterMap id =
              (List.range l.length).filterMap
                ((fun j => if 0 ≤ j then ((a :: l).get? j).join else none) ∘
                  Nat.succ) := by
            rw [ih 0]
            apply List.filterMap_congr
            intro j _
            simp
          rw [List.drop_zero] at htail
          cases a with
          | none => simpa using htail
          | some x => simpa using htail
      | succ lo' =>
          have hhead : (if lo' + 1 ≤ 0 then ((a :: l).get? 0).join else none)
              = none := by simp
          rw [hhead]
          have htail : (l.drop lo').filterMap id =
              (List.range l.length).filterMap
                ((fun j => if lo' + 1 ≤ j then ((a :: l).get? j).join
                  else none) ∘ Nat.succ) := by
            rw [ih lo']
            apply List.filterMap_congr
            intro j _
            simp [Nat.succ_le_succ_iff]
          rw [List.drop_succ_cons, htail]

/-- C7 counterexample: the smoothing step is NOT a centered rolling mean.
On the signal `[0, 0, 3]` with `window_size = 3`, the code's rolling mean
gives 0 at index 1 (trailing window `{0, 0}`), while the centered mean of
width 3 at index 1 is 1 (window `{0, 0, 3}`). -/
theorem rollingMeanTrailing_not_centered_cex :
    (rollingMeanTrailing 3 smoothingExample).get? 1 = some (some 0)
    ∧ specCenteredMean 3 smoothingExample 1 = some 1
    ∧ some (0 : ℚ) ≠ some (1 : ℚ) := by
  refine ⟨?_, ?_, by norm_num⟩
  · norm_num [rollingMeanTrailing, smoothingExample, List.range_succ,
      List.filterMap_cons]
    intro h
    simp at h
  · norm_num [specCenteredMean, smoothingExample, List.range_succ,
      List.filterMap_cons]
    intro h
    simp at h

/-- C7 amended: the smoothing step applies a TRAILING rolling mean of
width `window_size` with a minimum of 1 valid sample: output sample `i` is
the mean of the valid raw samples at indices `max(0, i - w + 1) .. i`
(NaN when none is valid). -/
theorem rollingMeanTrailing_eq_specTrailingMean (w : Nat)
    (xs : List (Option ℚ)) (i : Nat) (hi : i < xs.length) :
    (rollingMeanTrailing w xs).get? i = some (specTrailingMean w xs i) := by
  unfold rollingMeanTrailing specTrailingMean
  rw [List.get?_eq_getElem?, List.getElem?_map, List.getElem?_range hi,
    Option.map_some']
  have hlen : (xs.take (i + 1)).length = i + 1 := by
    rw [List.length_take]
    omega
  have hkey : ((xs.take (i + 1)).drop (i + 1 - w)).filterMap id =
      (List.range (i + 1)).filterMap
        (fun j => if i + 1 - w ≤ j then (xs.get? j).join else none) := by
    rw [filterMap_drop_eq_range (xs.take (i + 1)) (i + 1 - w), hlen]
    apply List.filterMap_congr
    intro j hj
    have hj' : j < i + 1 := List.mem_range.mp hj
    rw [List.get?_eq_getElem?, List.get?_eq_getElem?,
      List.getElem?_take_of_lt hj']
  rw [hkey]

/-- Witness for C7 amended: index 1 of the smoothing example. -/
theorem rollingMeanTrailing_eq_specTrailingMean_witness :
    1 < smoothingExample.length
    ∧ (rollingMeanTrailing 3 smoothingExample).get? 1 =
        some (specTrailingMean 3 smoothingExample 1) :=
  ⟨by decide,
    rollingMeanTrailing_eq_specTrailingMean 3 smoothingExample 1 (by decide)⟩

set_option maxRecDepth 40000 in
/-- C2 counterexample: `threeRunSeries` has exactly three present runs
`(0,241), (242,483), (484,725)`, each longer than 240 frames and separated
by missing gaps, yet `find_non_nan_intervals` returns `None` — not those
three present-run intervals.  (The spurious transition that pandas'
NaN-shift creates at index 0 misaligns the zip of run ends with run
starts.) -/
theorem findNonNanIntervals_presentRuns_cex :
    specPresentRuns threeRunSeries = [(0, 241), (242, 483), (484, 725)]
    ∧ (∀ p ∈ specPresentRuns threeRunSeries, 240 < p.2 - p.1)
    ∧ findNonNanIntervals threeRunSeries = none := by decide

theorem transitionsFrom_replicate_same (b : Bool) (k : Nat)
    (rest : List Bool) (i : Nat) :
    transitionsFrom (some b) i (List.replicate k b ++ rest) =
      transitionsFrom (some b) (i + k) rest := by
  induction k generalizing i with
  | zero => simp
  | succ k ih =>
      rw [List.replicate_succ, List.cons_append]
      simp only [transitionsFrom]
      rw [if_neg (by simp [boolNeShift]), ih (i + 1)]
      have harith : i + 1 + k = i + (k + 1) := by omega
      rw [harith]

theorem transitionsFrom_flip (b c : Bool) (hbc : c ≠ b) (k : Nat)
    (hk : 0 < k) (rest : List Bool) (i : Nat) :
    transitionsFrom (some b) i (List.replicate k c ++ rest) =
      i :: transitionsFrom (some c) (i + k) rest := by
  obtain ⟨k', rfl⟩ : ∃ k', k = k' + 1 := ⟨k - 1, by omega⟩
  rw [List.replicate_succ, List.cons_append]
  simp only [transitionsFrom]
  rw [if_pos (by simp [boolNeShift, hbc]), transitionsFrom_replicate_same]
  have harith : i + 1 + k' = i + (k' + 1) := by omega
  rw [harith]

theorem transitionsFrom_none_replicate (b : Bool) (k : Nat) (hk : 0 < k)
    (rest : List Bool) :
    transitionsFrom none 0 (List.replicate k b ++ rest) =
      0 :: transitionsFrom (some b) k rest := by
  obtain ⟨k', rfl⟩ : ∃ k', k = k' + 1 := ⟨k - 1, by omega⟩
  rw [List.replicate_succ, List.cons_append]
  simp only [transitionsFrom]
  rw [if_pos (show boolNeShift b none = true from rfl),
    transitionsFrom_replicate_same]
  have harith : 0 + 1 + k' = k' + 1 := by omega
  rw [harith]

theorem getElem?_replicate_append_lt {α : Type _} (x : α) (n : Nat)
    (l : List α) (i : Nat) (h : i < n) :
    (List.replicate n x ++ l)[i]? = some x := by
  rw [List.getElem?_append_left (by simpa using h)]
  simp [List.getElem?_replicate, h]

theorem getElem?_replicate_append_add {α : Type _} (x : α) (n : Nat)
    (l : List α) (i : Nat) :
    (List.replicate n x ++ l)[n + i]? = l[i]? := by
  rw [List.getElem?_append_right (by simp)]
  simp

theorem getElem?_replicate_append_self {α : Type _} (x : α) (n : Nat)
    (l : List α) :
    (List.replicate n x ++ l)[n]? = l[0]? := by
  have h := getElem?_replicate_append_add x n l 0
  simpa using h

theorem transitionsFrom_flip_last (b c : Bool) (hbc : c ≠ b) (k : Nat)
    (hk : 0 < k) (i : Nat) :
    transitionsFrom (some b) i (List.replicate k c) = [i] := by
  have h := transitionsFrom_flip b c hbc k hk [] i
  rw [List.append_nil] at h
  rw [h]
  rfl

/-- C2 amended: on every series made of three missing gaps, each longer
than 240 frames and each followed by a nonempty present run (so the series
begins missing and ends present), `find_non_nan_intervals` returns exactly
the three missing-GAP `(start, end)` intervals in temporal order — it does
not return the present-run intervals. -/
theorem findNonNanIntervals_gapRuns (g1 p1 g2 p2 g3 p3 : Nat)
    (hg1 : 240 < g1) (hg2 : 240 < g2) (hg3 : 240 < g3)
    (hp1 : 0 < p1) (hp2 : 0 < p2) (hp3 : 0 < p3) :
    findNonNanIntervals (gapRunSeries g1 p1 g2 p2 g3 p3) =
      some [(0, g1), (g1 + p1, g1 + p1 + g2),
        (g1 + p1 + g2 + p2, g1 + p1 + g2 + p2 + g3)] := by
  have hg1' : 0 < g1 := by omega
  have hg2' : 0 < g2 := by omega
  have hg3' : 0 < g3 := by omega
  -- the NaN mask block structure
  have hmask : isNanList (gapRunSeries g1 p1 g2 p2 g3 p3) =
      List.replicate g1 true ++ (List.replicate p1 false ++
        (List.replicate g2 true ++ (List.replicate p2 false ++
          (List.replicate g3 true ++ List.replicate p3 false)))) := by
    unfold gapRunSeries isNanList
    simp
  -- transition indices
  have htrans : transitionIndices (gapRunSeries g1 p1 g2 p2 g3 p3) =
      [0, g1, g1 + p1, g1 + p1 + g2, g1 + p1 + g2 + p2,
        g1 + p1 + g2 + p2 + g3] := by
    unfold transitionIndices
    rw [hmask,
      transitionsFrom_none_replicate true g1 hg1',
      transitionsFrom_flip true false (by decide) p1 hp1,
      transitionsFrom_flip false true (by decide) g2 hg2',
      transitionsFrom_flip true false (by decide) p2 hp2,
      transitionsFrom_flip false true (by decide) g3 hg3',
      transitionsFrom_flip_last true false (by decide) p3 hp3]
  -- NaN-mask values at each transition index and at the last frame
  have h0 : nanAt (gapRunSeries g1 p1 g2 p2 g3 p3) 0 = true := by
    unfold nanAt gapRunSeries
    rw [List.get?_eq_getElem?, getElem?_replicate_append_lt _ _ _ _ hg1']
    rfl
  have h1 : nanAt (gapRunSeries g1 p1 g2 p2 g3 p3) g1 = false := by
    unfold nanAt gapRunSeries
    rw [List.get?_eq_getElem?, getElem?_replicate_append_self,
      getElem?_replicate_append_lt _ _ _ _ hp1]
    rfl
  have h2 : nanAt (gapRunSeries g1 p1 g2 p2 g3 p3) (g1 + p1) = true := by
    unfold nanAt gapRunSeries
    rw [List.get?_eq_getElem?, getElem?_replicate_append_add,
      getElem?_replicate_append_self,
      getElem?_replicate_append_lt _ _ _ _ hg2']
    rfl
  have h3 : nanAt (gapRunSeries g1 p1 g2 p2 g3 p3) (g1 + p1 + g2) =
      false := by
    unfold nanAt gapRunSeries
    have e : g1 + p1 + g2 = g1 + (p1 + g2) := by omega
    rw [e, List.get?_eq_getElem?, getElem?_replicate_append_add,
      getElem?_replicate_append_add, getElem?_replicate_append_self,
      getElem?_replicate_append_lt _ _ _ _ hp2]
    rfl
  have h4 : nanAt (gapRunSeries g1 p1 g2 p2 g3 p3) (g1 + p1 + g2 + p2) =
      true := by
    unfold nanAt gapRunSeries
    have e : g1 + p1 + g2 + p2 = g1 + (p1 + (g2 + p2)) := by omega
    rw [e, List.get?_eq_getElem?, getElem?_replicate_append_add,
      getElem?_replicate_append_add, getElem?_replicate_append_add,
      getElem?_replicate_append_self,
      getElem?_replicate_append_lt _ _ _ _ hg3']
    rfl
  have h5 : nanAt (gapRunSeries g1 p1 g2 p2 g3 p3)
      (g1 + p1 + g2 + p2 + g3) = false := by
    unfold nanAt gapRunSeries
    have e : g1 + p1 + g2 + p2 + g3 = g1 + (p1 + (g2 + (p2 + g3))) := by
      omega
    rw [e, List.get?_eq_getElem?, getElem?_replicate_append_add,
      getElem?_replicate_append_add, getElem?_replicate_append_add,
      getElem?_replicate_append_add, getElem?_replicate_append_self,
      List.getElem?_replicate, if_pos hp3]
    rfl
  have hlen : (gapRunSeries g1 p1 g2 p2 g3 p3).length =
      g1 + p1 + g2 + p2 + g3 + p3 := by
    simp [gapRunSeries]
    omega
  have hlast : nanAt (gapRunSeries g1 p1 g2 p2 g3 p3)
      ((gapRunSeries g1 p1 g2 p2 g3 p3).length - 1) = false := by
    rw [hlen]
    unfold nanAt gapRunSeries
    have e : g1 + p1 + g2 + p2 + g3 + p3 - 1 =
        g1 + (p1 + (g2 + (p2 + (g3 + (p3 - 1))))) := by omega
    rw [e, List.get?_eq_getElem?, getElem?_replicate_append_add,
      getElem?_replicate_append_add, getElem?_replicate_append_add,
      getElem?_replicate_append_add, getElem?_replicate_append_add,
      List.getElem?_replicate, if_pos (by omega : p3 - 1 < p3)]
    rfl
  -- the two transition lists of the source loop
  have hntv : nanToVals (gapRunSeries g1 p1 g2 p2 g3 p3) =
      [g1, g1 + p1 + g2, g1 + p1 + g2 + p2 + g3] := by
    unfold nanToVals
    rw [htrans]
    simp [List.filter_cons, h0, h1, h2, h3, h4, h5]
  have hvtn : valToNans (gapRunSeries g1 p1 g2 p2 g3 p3) =
      [0, g1 + p1, g1 + p1 + g2 + p2] := by
    unfold valToNans
    rw [htrans]
    simp [List.filter_cons, h0, h1, h2, h3, h4, h5]
  have hadj1 : nanToValsAdjusted (gapRunSeries g1 p1 g2 p2 g3 p3) =
      [g1, g1 + p1 + g2, g1 + p1 + g2 + p2 + g3] := by
    unfold nanToValsAdjusted
    rw [h0, hntv]
    rfl
  have hadj2 : valToNansAdjusted (gapRunSeries g1 p1 g2 p2 g3 p3) =
      [0, g1 + p1, g1 + p1 + g2 + p2,
        (gapRunSeries g1 p1 g2 p2 g3 p3).length] := by
    unfold valToNansAdjusted
    rw [hlast, hvtn]
    rfl
  have hcand : candidateIntervals (gapRunSeries g1 p1 g2 p2 g3 p3) =
      [(0, g1), (g1 + p1, g1 + p1 + g2),
        (g1 + p1 + g2 + p2, g1 + p1 + g2 + p2 + g3)] := by
    unfold candidateIntervals
    rw [hadj1, hadj2]
    rfl
  have hqual : qualifyingIntervals (gapRunSeries g1 p1 g2 p2 g3 p3) =
      [(0, g1), (g1 + p1, g1 + p1 + g2),
        (g1 + p1 + g2 + p2, g1 + p1 + g2 + p2 + g3)] := by
    unfold qualifyingIntervals
    rw [hcand]
    rw [List.filter_eq_self.mpr]
    intro p hp
    rw [decide_eq_true_eq]
    simp only [List.mem_cons, List.not_mem_nil, or_false] at hp
    rcases hp with rfl | rfl | rfl <;> simp <;> omega
  have hne : gapRunSeries g1 p1 g2 p2 g3 p3 ≠ [] :=
    List.ne_nil_of_length_pos (by rw [hlen]; omega)
  unfold findNonNanIntervals
  rw [if_neg hne, hqual]
  rfl

/-- Witness for C2 amended: gaps of 241, 242, 243 frames with runs of
1, 1, 5 frames. -/
theorem findNonNanIntervals_gapRuns_witness :
    findNonNanIntervals (gapRunSeries 241 1 242 1 243 5) =
      some [(0, 241), (242, 484), (485, 728)] := by
  have h := findNonNanIntervals_gapRuns 241 1 242 1 243 5
    (by norm_num) (by norm_num) (by norm_num)
    (by norm_num) (by norm_num) (by norm_num)
  norm_num at h
  exact h

end Openfield
